import Mathlib

/-!
Shallow embedding of the task repository of `src/models/taskModel.ts`
(data model from `src/types/index.ts`), together with theorems about its
reconciliation, update, deletion, archival, search and pagination logic.

Conventions of the embedding:
* JavaScript `Date` values are modelled as `Nat` timestamps; the current
  time is passed explicitly (`now : Nat`, or `nowIso : String` where the
  code manipulates the ISO string).
* File I/O is modelled by explicit state passing: each operation takes the
  stored task list and returns the result together with the task list that
  the final `writeTasks` call persists (unchanged when no write occurs).
* `uuidv4()` is modelled by an explicit supply `fresh : Nat → String`; the
  n-th call to the generator returns `fresh n`.
* Optional TypeScript fields are modelled as `Option`; an absent
  `dependencies` array on an incoming spec behaves exactly like an empty
  one in the source (the guard is `deps && deps.length > 0`), so it is
  modelled as `[]`.
* The `TypeError` thrown by `newTask.dependencies = …` when
  `newTasks[i]` is `undefined` is modelled by an `Option` result of
  `batchCreateOrUpdateTasks`: `none` is the crash.
-/

namespace TaskModel

/-! ## Basic string helpers (substring, lowercase search, tokenizing) -/

/-- `chStarts needle hay` : `needle` is a prefix of the character list `hay`. -/
def chStarts : List Char → List Char → Bool
  | [], _ => true
  | _ :: _, [] => false
  | a :: as, b :: bs => a = b && chStarts as bs

/-- `chContains needle hay` : `needle` occurs contiguously inside `hay`. -/
def chContains (needle : List Char) : List Char → Bool
  | [] => chStarts needle []
  | b :: bs => chStarts needle (b :: bs) || chContains needle bs

/-- JavaScript `hay.includes(needle)`. -/
def strContains (hay needle : String) : Bool :=
  chContains needle.toList hay.toList

/-- JavaScript `s.toLowerCase()` (character-wise lowering; the texts in
this development are ASCII, where the two agree). -/
def strToLower (s : String) : String :=
  String.mk (s.data.map Char.toLower)

/-- Splitting a string at every character satisfying `p`, keeping empty
pieces — the behaviour of splitting on a single-character separator. -/
def splitByAux (p : Char → Bool) : List Char → List Char → List String
  | [], acc => [String.mk acc.reverse]
  | c :: rest, acc =>
    if p c then String.mk acc.reverse :: splitByAux p rest []
    else splitByAux p rest (c :: acc)

/-- `splitBy p s` : the pieces of `s` between characters satisfying `p`. -/
def splitBy (p : Char → Bool) (s : String) : List String :=
  splitByAux p s.data []

/-- `field.toLowerCase().includes(lowerKeyword)` from the keyword filters. -/
def containsLower (field : String) (lowerKeyword : String) : Bool :=
  strContains (strToLower field) lowerKeyword

/-- The same test on an optional field: an absent field never matches
(`task.notes && task.notes.toLowerCase().includes(k)`). -/
def optContainsLower : Option String → String → Bool
  | some s, k => containsLower s k
  | none, _ => false

/-- `query.split(/\s+/).filter(k => k.length > 0)` : whitespace tokens
(splitting at single whitespace characters and dropping empty pieces gives
exactly the maximal non-whitespace runs, as `/\s+/` does). -/
def keywordsOf (query : String) : List String :=
  (splitBy (fun c => c.isWhitespace) query).filter (fun k => k.length > 0)

/-! ## Data model (`src/types/index.ts`) -/

inductive TaskStatus where
  | pending
  | inProgress
  | completed
  | blocked
deriving DecidableEq, Repr

structure TaskDependency where
  taskId : String
deriving DecidableEq, Repr

inductive RelatedFileType where
  | toModify
  | reference
  | create
  | dependency
  | other
deriving DecidableEq, Repr

structure RelatedFile where
  path : String
  type : RelatedFileType
  description : Option String := none
  lineStart : Option Nat := none
  lineEnd : Option Nat := none
deriving DecidableEq, Repr

structure Task where
  id : String
  name : String
  description : String
  notes : Option String := none
  status : TaskStatus
  dependencies : List TaskDependency
  createdAt : Nat
  updatedAt : Nat
  completedAt : Option Nat := none
  summary : Option String := none
  relatedFiles : Option (List RelatedFile) := none
  analysisResult : Option String := none
  implementationGuide : Option String := none
  verificationCriteria : Option String := none
deriving DecidableEq, Repr

/-- `getTaskById` : `tasks.find(t => t.id === taskId) || null`. -/
def getTaskById (tasks : List Task) (taskId : String) : Option Task :=
  tasks.find? (fun t => t.id = taskId)

/-! ## `updateTask` and friends (claim C6) -/

/-- A `Partial<Task>` updates object: `some v` means the key is present
with value `v` (the code paths exercised by the claims never pass a key
explicitly set to `undefined`). -/
structure TaskUpdates where
  id : Option String := none
  name : Option String := none
  description : Option String := none
  notes : Option String := none
  status : Option TaskStatus := none
  dependencies : Option (List TaskDependency) := none
  createdAt : Option Nat := none
  completedAt : Option Nat := none
  summary : Option String := none
  relatedFiles : Option (List RelatedFile) := none
  analysisResult : Option String := none
  implementationGuide : Option String := none
  verificationCriteria : Option String := none
deriving DecidableEq, Repr

/-- `Object.keys(updates)` over the modelled updates object. -/
def attemptedFields (u : TaskUpdates) : List String :=
  (if u.id.isSome then ["id"] else []) ++
  (if u.name.isSome then ["name"] else []) ++
  (if u.description.isSome then ["description"] else []) ++
  (if u.notes.isSome then ["notes"] else []) ++
  (if u.status.isSome then ["status"] else []) ++
  (if u.dependencies.isSome then ["dependencies"] else []) ++
  (if u.createdAt.isSome then ["createdAt"] else []) ++
  (if u.completedAt.isSome then ["completedAt"] else []) ++
  (if u.summary.isSome then ["summary"] else []) ++
  (if u.relatedFiles.isSome then ["relatedFiles"] else []) ++
  (if u.analysisResult.isSome then ["analysisResult"] else []) ++
  (if u.implementationGuide.isSome then ["implementationGuide"] else []) ++
  (if u.verificationCriteria.isSome then ["verificationCriteria"] else [])

def allowedFields : List String := ["summary", "relatedFiles"]

/-- The fields of `updates` whose key is not in `allowedFields`. -/
def disallowedFields (u : TaskUpdates) : List String :=
  (attemptedFields u).filter (fun f => !allowedFields.contains f)

/-- `{...task, ...updates, updatedAt: new Date()}`. -/
def applyUpdates (t : Task) (u : TaskUpdates) (now : Nat) : Task :=
  { id := u.id.getD t.id
    name := u.name.getD t.name
    description := u.description.getD t.description
    notes := match u.notes with | some v => some v | none => t.notes
    status := u.status.getD t.status
    dependencies := u.dependencies.getD t.dependencies
    createdAt := u.createdAt.getD t.createdAt
    updatedAt := now
    completedAt := match u.completedAt with | some v => some v | none => t.completedAt
    summary := match u.summary with | some v => some v | none => t.summary
    relatedFiles := match u.relatedFiles with | some v => some v | none => t.relatedFiles
    analysisResult := match u.analysisResult with | some v => some v | none => t.analysisResult
    implementationGuide :=
      match u.implementationGuide with | some v => some v | none => t.implementationGuide
    verificationCriteria :=
      match u.verificationCriteria with | some v => some v | none => t.verificationCriteria }

/-- `updateTask(taskId, updates)` : returns the task the function returns
(`none` = `null`) and the stored list after the call. -/
def updateTask (tasks : List Task) (taskId : String) (updates : TaskUpdates) (now : Nat) :
    Option Task × List Task :=
  match List.findIdx? (fun t => t.id = taskId) tasks with
  | none => (none, tasks)
  | some taskIndex =>
    match tasks[taskIndex]? with
    | none => (none, tasks)
    | some t =>
      if t.status = TaskStatus.completed ∧ disallowedFields updates ≠ [] then
        (none, tasks)
      else
        let updated := applyUpdates t updates now
        (some updated, tasks.set taskIndex updated)

/-- `updateTaskStatus(taskId, status)`. -/
def updateTaskStatus (tasks : List Task) (taskId : String) (status : TaskStatus) (now : Nat) :
    Option Task × List Task :=
  updateTask tasks taskId
    { status := some status
      completedAt := if status = TaskStatus.completed then some now else none } now

structure OpResult where
  success : Bool
  message : String
  task : Option Task := none
deriving DecidableEq, Repr

/-- The updates object accepted by `updateTaskContent`. -/
structure ContentUpdates where
  name : Option String := none
  description : Option String := none
  notes : Option String := none
  relatedFiles : Option (List RelatedFile) := none
  dependencies : Option (List String) := none
  implementationGuide : Option String := none
  verificationCriteria : Option String := none
deriving DecidableEq, Repr

/-- The `updateObj` built by `updateTaskContent` from the provided fields. -/
def contentToUpdates (u : ContentUpdates) : TaskUpdates :=
  { name := u.name
    description := u.description
    notes := u.notes
    relatedFiles := u.relatedFiles
    dependencies := u.dependencies.map (fun ds => ds.map (fun d => ⟨d⟩))
    implementationGuide := u.implementationGuide
    verificationCriteria := u.verificationCriteria }

/-- `updateTaskContent(taskId, updates)`. -/
def updateTaskContent (tasks : List Task) (taskId : String) (u : ContentUpdates) (now : Nat) :
    OpResult × List Task :=
  match getTaskById tasks taskId with
  | none => ({ success := false, message := "Task not found" }, tasks)
  | some task =>
    if task.status = TaskStatus.completed then
      ({ success := false, message := "Cannot update completed task" }, tasks)
    else
      let updates := contentToUpdates u
      if attemptedFields updates = [] then
        ({ success := true, message := "No updates provided", task := some task }, tasks)
      else
        match updateTask tasks taskId updates now with
        | (none, ts) => ({ success := false, message := "Error updating task" }, ts)
        | (some ut, ts) =>
          ({ success := true, message := "Task content updated successfully",
             task := some ut }, ts)

/-! ## `deleteTask` (claim C7) -/

structure DeleteResult where
  success : Bool
  message : String
deriving DecidableEq, Repr

/-- `tasks.filter((_, index) => index !== taskIndex)` then the dependents
filter of `deleteTask`. -/
def dependentsOf (tasks : List Task) (taskIndex : Nat) (taskId : String) : List Task :=
  ((tasks.enum.filter (fun p => p.1 ≠ taskIndex)).map (fun p => p.2)).filter
    (fun t => t.dependencies.any (fun dep => dep.taskId = taskId))

/-- The `"name" (ID: id)` list joined with `", "` in the failure message. -/
def dependentNames (dependentTasks : List Task) : String :=
  String.intercalate ", "
    (dependentTasks.map (fun t => "\"" ++ t.name ++ "\" (ID: " ++ t.id ++ ")"))

/-- `deleteTask(taskId)` : result and the stored list after the call. -/
def deleteTask (tasks : List Task) (taskId : String) : DeleteResult × List Task :=
  match List.findIdx? (fun t => t.id = taskId) tasks with
  | none => ({ success := false, message := "Task not found" }, tasks)
  | some taskIndex =>
    match tasks[taskIndex]? with
    | none => ({ success := false, message := "Task not found" }, tasks)
    | some t =>
      if t.status = TaskStatus.completed then
        ({ success := false, message := "Cannot delete completed task" }, tasks)
      else
        let dependentTasks := dependentsOf tasks taskIndex taskId
        if dependentTasks = [] then
          ({ success := true, message := "Task deleted successfully" },
           tasks.eraseIdx taskIndex)
        else
          ({ success := false,
             message := "Cannot delete this task because the following tasks depend on it: "
               ++ dependentNames dependentTasks }, tasks)

/-! ## `clearAllTasks` (claim C8) -/

/-- `.replace(/:/g, "-")`. -/
def replaceColons (s : String) : String :=
  String.mk (s.data.map (fun c => if c = ':' then '-' else c))

/-- Character-list core of `.replace(/\..+/, "")` : the leftmost `.` that is
followed by at least one character starts a greedy match reaching the end of
the string, and the match is deleted. -/
def dropFromDotAux : List Char → List Char
  | [] => []
  | c :: rest => if c = '.' ∧ rest ≠ [] then [] else c :: dropFromDotAux rest

/-- `.replace(/\..+/, "")`. -/
def stripSubseconds (s : String) : String :=
  String.mk (dropFromDotAux s.toList)

/-- `tasks_memory_${timestamp}.json` with the sanitized ISO timestamp. -/
def backupFileNameOf (nowIso : String) : String :=
  "tasks_memory_" ++ stripSubseconds (replaceColons nowIso) ++ ".json"

structure ClearResult where
  success : Bool
  message : String
  backupFile : Option String := none
deriving DecidableEq, Repr

/-- `clearAllTasks()` : returns the result, the live store after the call,
and the archive document written (`none` when no archive write happens). -/
def clearAllTasks (allTasks : List Task) (nowIso : String) :
    ClearResult × List Task × Option (String × List Task) :=
  if allTasks.length = 0 then
    ({ success := true, message := "No tasks to clear" }, allTasks, none)
  else
    let completedTasks := allTasks.filter (fun t => t.status = TaskStatus.completed)
    let backupFileName := backupFileNameOf nowIso
    ({ success := true
       message := "Successfully cleared all tasks, " ++ toString allTasks.length ++
         " tasks deleted, backed up " ++ toString completedTasks.length ++
         " completed tasks to memory directory"
       backupFile := some backupFileName },
     [], some (backupFileName, completedTasks))

/-! ## Pagination tail of `searchTasksWithCommand` (claim C9) -/

structure Pagination where
  currentPage : Nat
  totalPages : Nat
  totalResults : Nat
  hasMore : Bool
deriving DecidableEq, Repr

/-- The pagination block of `searchTasksWithCommand`, applied to the merged
and sorted result list `allTasks` (for `pageSize > 0`,
`Math.ceil(totalResults / pageSize)` is `(totalResults + pageSize - 1) / pageSize`). -/
def paginateSearchResults (allTasks : List Task) (page pageSize : Nat) :
    List Task × Pagination :=
  let totalResults := allTasks.length
  let totalPages := (totalResults + pageSize - 1) / pageSize
  let safePage := max 1 (min page (if totalPages = 0 then 1 else totalPages))
  let startIndex := (safePage - 1) * pageSize
  let endIndex := min (startIndex + pageSize) totalResults
  ((allTasks.drop startIndex).take (endIndex - startIndex),
   { currentPage := safePage
     totalPages := if totalPages = 0 then 1 else totalPages
     totalResults := totalResults
     hasMore := decide (safePage < totalPages) })

/-! ## `filterCurrentTasks` (claim C10) -/

/-- One keyword test of the keyword branch of `filterCurrentTasks`. -/
def taskMatchesKeyword (t : Task) (keyword : String) : Bool :=
  containsLower t.name (strToLower keyword) ||
  containsLower t.description (strToLower keyword) ||
  optContainsLower t.notes (strToLower keyword) ||
  optContainsLower t.implementationGuide (strToLower keyword) ||
  optContainsLower t.summary (strToLower keyword)

/-- `filterCurrentTasks(tasks, query, isId)`. -/
def filterCurrentTasks (tasks : List Task) (query : String) (isId : Bool) : List Task :=
  if isId then tasks.filter (fun t => t.id = query)
  else
    let keywords := keywordsOf query
    if keywords = [] then tasks
    else tasks.filter (fun t => keywords.all (fun k => taskMatchesKeyword t k))

/-! ## `batchCreateOrUpdateTasks` (claims C1–C5) -/

/-- `c.isHexDigit` for the character class `[0-9a-fA-F]`. -/
def isHexChar (c : Char) : Bool :=
  c.isDigit || ('a' ≤ c && c ≤ 'f') || ('A' ≤ c && c ≤ 'F')

/-- The test
`dependencyName.match(/^[0-9a-f]{8}-[0-9a-f]{4}-[0-9a-f]{4}-[0-9a-f]{4}-[0-9a-f]{12}$/i)`:
exactly five hyphen-separated groups of hex digits with lengths 8-4-4-4-12. -/
def isUUIDShape (s : String) : Bool :=
  match splitBy (fun c => c = '-') s with
  | [a, b, c, d, e] =>
      a.length == 8 && b.length == 4 && c.length == 4 && d.length == 4 && e.length == 12 &&
      a.data.all isHexChar && b.data.all isHexChar && c.data.all isHexChar &&
      d.data.all isHexChar && e.data.all isHexChar
  | _ => false

inductive UpdateMode where
  | append
  | overwrite
  | selective
  | clearAllTasks
deriving DecidableEq, Repr

/-- One element of `taskDataList` (an absent `dependencies` array behaves
exactly like `[]` in the source, so both are modelled as `[]`). -/
structure TaskData where
  name : String
  description : String
  notes : Option String := none
  dependencies : List String := []
  relatedFiles : Option (List RelatedFile) := none
  implementationGuide : Option String := none
  verificationCriteria : Option String := none
deriving DecidableEq, Repr

/-- The `taskNameToIdMap`: a JavaScript `Map<string,string>` where the most
recent `set` of a key wins on lookup. -/
abbrev NameMap := List (String × String)

/-- `map.set(k, v)`. -/
def mset (m : NameMap) (k v : String) : NameMap := (k, v) :: m

/-- `map.get(k)` (`isSome` is `map.has(k)`). -/
def mget (m : NameMap) (k : String) : Option String :=
  (m.find? (fun p => p.1 = k)).map (fun p => p.2)

/-- The `tasksToKeep` computed from `updateMode` before the main loop. -/
def keptTasks (existingTasks : List Task) (taskDataList : List TaskData) :
    UpdateMode → List Task
  | .append => existingTasks
  | .overwrite => existingTasks.filter (fun t => t.status = TaskStatus.completed)
  | .selective =>
      existingTasks.filter
        (fun t => !(taskDataList.map (fun d => d.name)).contains t.name)
  | .clearAllTasks => []

/-- Seeding of `taskNameToIdMap`: in selective mode all existing tasks are
recorded first, then the kept tasks are recorded (later writes win). -/
def seedNameMap (existingTasks keep : List Task) (updateMode : UpdateMode) : NameMap :=
  let m1 := if updateMode = UpdateMode.selective then
      existingTasks.foldl (fun m t => mset m t.name t.id) []
    else []
  keep.foldl (fun m t => mset m t.name t.id) m1

/-- The `updatedTask` object built in the selective-update branch: spread of
the existing task with the listed fields replaced (`relatedFiles` only when
the spec provides them). -/
def updatedTaskOf (taskToUpdate : Task) (d : TaskData) (gar : Option String)
    (now : Nat) : Task :=
  { taskToUpdate with
    name := d.name
    description := d.description
    notes := d.notes
    updatedAt := now
    implementationGuide := d.implementationGuide
    verificationCriteria := d.verificationCriteria
    analysisResult := gar
    relatedFiles := match d.relatedFiles with
      | some rf => some rf
      | none => taskToUpdate.relatedFiles }

/-- The `newTask` object built in the creation branch. -/
def newTaskOf (newTaskId : String) (d : TaskData) (gar : Option String)
    (now : Nat) : Task :=
  { id := newTaskId
    name := d.name
    description := d.description
    notes := d.notes
    status := TaskStatus.pending
    dependencies := []
    createdAt := now
    updatedAt := now
    relatedFiles := d.relatedFiles
    implementationGuide := d.implementationGuide
    verificationCriteria := d.verificationCriteria
    analysisResult := gar }

/-- State threaded through the main `for (const taskData of taskDataList)`
loop: the mutable `tasksToKeep`, `taskNameToIdMap` and `newTasks`, plus the
number of `uuidv4()` calls made so far. -/
structure MatState where
  tasksToKeep : List Task
  nameMap : NameMap
  newTasks : List Task
  counter : Nat
deriving Repr

/-- The creation branch of the loop body. -/
def createStep (gar : Option String) (fresh : Nat → String) (now : Nat)
    (st : MatState) (d : TaskData) : MatState :=
  let newTaskId := fresh st.counter
  { tasksToKeep := st.tasksToKeep
    nameMap := mset st.nameMap d.name newTaskId
    newTasks := st.newTasks ++ [newTaskOf newTaskId d gar now]
    counter := st.counter + 1 }

/-- One iteration of the main loop of `batchCreateOrUpdateTasks`. -/
def materializeStep (existingTasks : List Task) (updateMode : UpdateMode)
    (gar : Option String) (fresh : Nat → String) (now : Nat)
    (st : MatState) (d : TaskData) : MatState :=
  if updateMode = UpdateMode.selective then
    match mget st.nameMap d.name with
    | some existingTaskId =>
      match existingTasks.find? (fun t => t.id = existingTaskId) with
      | some taskToUpdate =>
        if taskToUpdate.status ≠ TaskStatus.completed then
          { st with
            newTasks := st.newTasks ++ [updatedTaskOf taskToUpdate d gar now]
            tasksToKeep := st.tasksToKeep.filter (fun t => t.id ≠ existingTaskId) }
        else st
      | none => st
    | none => createStep gar fresh now st d
  else createStep gar fresh now st d

/-- The whole main loop. -/
def materialize (existingTasks : List Task) (updateMode : UpdateMode)
    (gar : Option String) (fresh : Nat → String) (now : Nat)
    (taskDataList : List TaskData) (st : MatState) : MatState :=
  taskDataList.foldl (materializeStep existingTasks updateMode gar fresh now) st

/-- The `resolvedDependencies` computed for one spec in the dependency
fix-up pass: UUID-shaped entries are kept only when some kept-or-new task
has that id, other entries are resolved through the name map or dropped. -/
def resolveDeps (allIds : List String) (m : NameMap) (deps : List String) :
    List TaskDependency :=
  deps.filterMap (fun dependencyName =>
    if isUUIDShape dependencyName then
      if allIds.contains dependencyName then some ⟨dependencyName⟩ else none
    else
      match mget m dependencyName with
      | some tid => some ⟨tid⟩
      | none => none)

/-- The dependency fix-up loop `for (let i = 0; i < taskDataList.length; i++)`:
`newTask := newTasks[i]`; when the spec has a non-empty dependency list the
assignment `newTask.dependencies = resolvedDependencies` is a `List.set` at
index `i` — and a `TypeError` (modelled as `none`) when `newTasks[i]` is
`undefined`. -/
def fixupGo (allIds : List String) (m : NameMap) :
    List TaskData → Nat → List Task → Option (List Task)
  | [], _, newTasks => some newTasks
  | d :: rest, i, newTasks =>
    if d.dependencies = [] then fixupGo allIds m rest (i + 1) newTasks
    else
      match newTasks[i]? with
      | none => none
      | some newTask =>
        fixupGo allIds m rest (i + 1)
          (newTasks.set i { newTask with dependencies := resolveDeps allIds m d.dependencies })

/-- The state after seeding and the main loop, as used by
`batchCreateOrUpdateTasks` before the fix-up pass. -/
def materializedState (existingTasks : List Task) (taskDataList : List TaskData)
    (updateMode : UpdateMode) (globalAnalysisResult : Option String)
    (fresh : Nat → String) (now : Nat) : MatState :=
  let keep0 := keptTasks existingTasks taskDataList updateMode
  materialize existingTasks updateMode globalAnalysisResult fresh now taskDataList
    { tasksToKeep := keep0
      nameMap := seedNameMap existingTasks keep0 updateMode
      newTasks := []
      counter := 0 }

/-- The `[...tasksToKeep, ...newTasks]` id pool the fix-up pass checks
UUID-shaped dependencies against. -/
def batchAllIds (existingTasks : List Task) (taskDataList : List TaskData)
    (updateMode : UpdateMode) (globalAnalysisResult : Option String)
    (fresh : Nat → String) (now : Nat) : List String :=
  ((materializedState existingTasks taskDataList updateMode globalAnalysisResult
      fresh now).tasksToKeep ++
   (materializedState existingTasks taskDataList updateMode globalAnalysisResult
      fresh now).newTasks).map (fun t => t.id)

/-- `batchCreateOrUpdateTasks(taskDataList, updateMode, globalAnalysisResult)`
against the stored list `existingTasks`: returns `some (allTasks, newTasks)`
where `allTasks` is the persisted set written by the final save and
`newTasks` the returned list, or `none` when the fix-up pass throws. -/
def batchCreateOrUpdateTasks (existingTasks : List Task) (taskDataList : List TaskData)
    (updateMode : UpdateMode) (globalAnalysisResult : Option String)
    (fresh : Nat → String) (now : Nat) : Option (List Task × List Task) :=
  match fixupGo (batchAllIds existingTasks taskDataList updateMode globalAnalysisResult
        fresh now)
      (materializedState existingTasks taskDataList updateMode globalAnalysisResult
        fresh now).nameMap
      taskDataList 0
      (materializedState existingTasks taskDataList updateMode globalAnalysisResult
        fresh now).newTasks with
  | none => none
  | some newFixed =>
    some ((materializedState existingTasks taskDataList updateMode globalAnalysisResult
        fresh now).tasksToKeep ++ newFixed, newFixed)

/-! ## Concrete sample data used by counterexamples and witnesses -/

/-- A deterministic UUID-shaped id supply for concrete runs (`uuidv4()`
returning distinct UUID-shaped strings); only indices 0–9 are used. -/
def demoFresh : Nat → String :=
  fun n => "00000000-0000-4000-8000-00000000000" ++ toString n

/-- An existing COMPLETED task named `X`. -/
def taskXCompleted : Task :=
  { id := "x-id", name := "X", description := "x",
    status := TaskStatus.completed, dependencies := [], createdAt := 0, updatedAt := 0 }

/-- An existing non-COMPLETED task named `X` with content to be replaced. -/
def taskXLive : Task :=
  { id := "x-id", name := "X", description := "xold", notes := some "n",
    status := TaskStatus.inProgress, dependencies := [⟨"d0"⟩], createdAt := 3, updatedAt := 4,
    summary := some "sum" }

/-- An existing COMPLETED task whose only dependency points at `taskPPending`. -/
def taskCDone : Task :=
  { id := "00000000-0000-4000-8000-0000000000aa", name := "C", description := "c",
    status := TaskStatus.completed,
    dependencies := [⟨"00000000-0000-4000-8000-0000000000bb"⟩],
    createdAt := 0, updatedAt := 0, completedAt := some 1 }

/-- An existing PENDING task (dropped by overwrite mode). -/
def taskPPending : Task :=
  { id := "00000000-0000-4000-8000-0000000000bb", name := "P", description := "p",
    status := TaskStatus.pending, dependencies := [], createdAt := 0, updatedAt := 0 }

/-- A PENDING task that depends on `taskPPending`. -/
def taskQDependsP : Task :=
  { id := "00000000-0000-4000-8000-0000000000cc", name := "Q", description := "q",
    status := TaskStatus.pending,
    dependencies := [⟨"00000000-0000-4000-8000-0000000000bb"⟩],
    createdAt := 0, updatedAt := 0 }

def specX : TaskData := { name := "X", description := "x2" }
def specXnew : TaskData := { name := "X", description := "xnew" }
def specY : TaskData := { name := "Y", description := "y" }
def specYdepZ : TaskData := { name := "Y", description := "y", dependencies := ["Z"] }
def specZ : TaskData := { name := "Z", description := "z" }
def specZdepY : TaskData := { name := "Z", description := "z", dependencies := ["Y"] }
def specA : TaskData := { name := "A", description := "a", dependencies := ["B"] }
def specB : TaskData := { name := "B", description := "b" }

/-- An updates object renaming the task (a disallowed key for COMPLETED). -/
def updName : TaskUpdates := { name := some "renamed" }

/-- An updates object touching only the allowed `summary` key. -/
def updSummary : TaskUpdates := { summary := some "better summary" }

/-- A content-updates object replacing the description. -/
def cuDesc : ContentUpdates := { description := some "new description" }

/-- A task whose description contains both `login` and `bug`. -/
def taskLoginBug : Task :=
  { id := "1", name := "t1", description := "fix the Login page BUG",
    status := TaskStatus.pending, dependencies := [], createdAt := 0, updatedAt := 0 }

/-- A task whose text contains only `login`. -/
def taskLoginOnly : Task :=
  { id := "2", name := "t2", description := "login form",
    status := TaskStatus.pending, dependencies := [], createdAt := 0, updatedAt := 0 }

/-! ## Theorems -/

/-- Claim C5: the batch `[{name:"A", dependencies:["B"]}, {name:"B"}]` in
append mode against an empty store yields exactly two tasks, and task A's
dependency list is exactly the identifier generated for task B — the
forward name reference resolves instead of being dropped. -/
theorem C5_forward_name_resolution (fresh : Nat → String) (now : Nat) :
    batchCreateOrUpdateTasks [] [specA, specB] UpdateMode.append none fresh now =
    some ([{ id := fresh 0, name := "A", description := "a", status := TaskStatus.pending,
             dependencies := [⟨fresh 1⟩], createdAt := now, updatedAt := now },
           { id := fresh 1, name := "B", description := "b", status := TaskStatus.pending,
             dependencies := [], createdAt := now, updatedAt := now }],
          [{ id := fresh 0, name := "A", description := "a", status := TaskStatus.pending,
             dependencies := [⟨fresh 1⟩], createdAt := now, updatedAt := now },
           { id := fresh 1, name := "B", description := "b", status := TaskStatus.pending,
             dependencies := [], createdAt := now, updatedAt := now }]) := by
  rfl

/-- Claim C1, counterexample: in overwrite mode the kept COMPLETED task
`taskCDone` survives with a dependency on the dropped PENDING task
`taskPPending`, so the final persisted set contains a dangling reference —
the claim is false for kept tasks. -/
theorem C1_counterexample :
    batchCreateOrUpdateTasks [taskCDone, taskPPending] [specY] UpdateMode.overwrite none
        demoFresh 5 =
      some ([taskCDone, newTaskOf (demoFresh 0) specY none 5],
            [newTaskOf (demoFresh 0) specY none 5]) ∧
    ∃ t ∈ [taskCDone, newTaskOf (demoFresh 0) specY none 5],
      ∃ dep ∈ t.dependencies,
        ∀ u ∈ [taskCDone, newTaskOf (demoFresh 0) specY none 5], u.id ≠ dep.taskId := by
  decide

/-- Claim C2, counterexample: in selective mode a spec whose name matches an
existing COMPLETED task is silently skipped — the batch with one incoming
spec returns an empty list (no brand-new task is created), and the matched
COMPLETED task is even dropped from the persisted set. -/
theorem C2_counterexample :
    batchCreateOrUpdateTasks [taskXCompleted] [specX] UpdateMode.selective none demoFresh 5 =
      some ([], []) ∧
    [specX].length = 1 := by
  decide

/-- Claim C10: a task passes the keyword filter iff every whitespace token
of the query occurs case-insensitively in one of name, description, notes,
implementationGuide or summary; concretely, query `login bug` returns only
the task containing both words. -/
theorem C10_keyword_filter :
    (∀ (tasks : List Task) (query : String) (t : Task),
      t ∈ filterCurrentTasks tasks query false ↔
        t ∈ tasks ∧ ∀ kw ∈ keywordsOf query,
          (containsLower t.name (strToLower kw) ||
           containsLower t.description (strToLower kw) ||
           optContainsLower t.notes (strToLower kw) ||
           optContainsLower t.implementationGuide (strToLower kw) ||
           optContainsLower t.summary (strToLower kw)) = true) ∧
    filterCurrentTasks [taskLoginBug, taskLoginOnly] "login bug" false = [taskLoginBug] := by
  constructor
  · intro tasks query t
    by_cases hk : keywordsOf query = []
    · simp [filterCurrentTasks, hk]
    · simp [filterCurrentTasks, hk, List.mem_filter, List.all_eq_true, taskMatchesKeyword]
  · decide

/-- Claim C9: with 12 results and pageSize 5, page 1 returns 5 tasks with
hasMore, page 3 returns 2 tasks without hasMore, page 99 clamps to page 3;
in general the current page is the requested page clamped into
`[1, totalPages]`, the reported totalPages is at least 1, and totalResults
is the result count. -/
theorem C9_pagination :
    (∀ (tasks : List Task), tasks.length = 12 →
      (paginateSearchResults tasks 1 5).1.length = 5 ∧
      (paginateSearchResults tasks 1 5).2.hasMore = true ∧
      (paginateSearchResults tasks 3 5).1.length = 2 ∧
      (paginateSearchResults tasks 3 5).2.hasMore = false ∧
      (paginateSearchResults tasks 99 5).2.currentPage = 3 ∧
      (paginateSearchResults tasks 99 5).1.length = 2) ∧
    (∀ (tasks : List Task) (page pageSize : Nat), 0 < pageSize →
      1 ≤ (paginateSearchResults tasks page pageSize).2.currentPage ∧
      (paginateSearchResults tasks page pageSize).2.currentPage =
        max 1 (min page (paginateSearchResults tasks page pageSize).2.totalPages) ∧
      1 ≤ (paginateSearchResults tasks page pageSize).2.totalPages ∧
      (paginateSearchResults tasks page pageSize).2.totalResults = tasks.length) := by
  constructor
  · intro tasks h
    simp [paginateSearchResults, h, List.length_take, List.length_drop]
  · intro tasks page pageSize hps
    by_cases h0 : (tasks.length + pageSize - 1) / pageSize = 0
    · simp [paginateSearchResults, h0]
    · have h1 : 1 ≤ (tasks.length + pageSize - 1) / pageSize :=
        Nat.one_le_iff_ne_zero.mpr h0
      simp [paginateSearchResults, h0, h1]

/-- Claim C8: clearing an empty live set succeeds without writing an
archive or touching the store; clearing a non-empty one archives exactly
the COMPLETED subset, empties the live store, and reports the archive
file name. -/
theorem C8_clearAllTasks :
    (∀ (tasks : List Task) (nowIso : String), tasks.length = 0 →
      clearAllTasks tasks nowIso =
        ({ success := true, message := "No tasks to clear" }, tasks, none)) ∧
    (∀ (tasks : List Task) (nowIso : String), tasks.length ≠ 0 →
      clearAllTasks tasks nowIso =
        ({ success := true
           message := "Successfully cleared all tasks, " ++ toString tasks.length ++
             " tasks deleted, backed up " ++
             toString (tasks.filter (fun t => t.status = TaskStatus.completed)).length ++
             " completed tasks to memory directory"
           backupFile := some (backupFileNameOf nowIso) },
         [],
         some (backupFileNameOf nowIso,
           tasks.filter (fun t => t.status = TaskStatus.completed)))) := by
  constructor
  · intro tasks nowIso h
    simp [clearAllTasks, h]
  · intro tasks nowIso h
    simp [clearAllTasks, h]

/-- Claim C7: `deleteTask` fails with a not-found message when no task has
the identifier, with a completed-task message when the task is COMPLETED,
and with a referential-integrity message naming every other task that
depends on it when dependents exist — each failure leaving the store
unchanged; otherwise the task is removed and the result persisted. -/
theorem C7_deleteTask :
    (∀ (tasks : List Task) (taskId : String),
      List.findIdx? (fun t => t.id = taskId) tasks = none →
      deleteTask tasks taskId = ({ success := false, message := "Task not found" }, tasks)) ∧
    (∀ (tasks : List Task) (taskId : String) (idx : Nat) (t : Task),
      List.findIdx? (fun x => x.id = taskId) tasks = some idx →
      tasks[idx]? = some t → t.status = TaskStatus.completed →
      deleteTask tasks taskId =
        ({ success := false, message := "Cannot delete completed task" }, tasks)) ∧
    (∀ (tasks : List Task) (taskId : String) (idx : Nat) (t : Task),
      List.findIdx? (fun x => x.id = taskId) tasks = some idx →
      tasks[idx]? = some t → t.status ≠ TaskStatus.completed →
      dependentsOf tasks idx taskId ≠ [] →
      deleteTask tasks taskId =
        ({ success := false
           message := "Cannot delete this task because the following tasks depend on it: "
             ++ dependentNames (dependentsOf tasks idx taskId) }, tasks)) ∧
    (∀ (tasks : List Task) (taskId : String) (idx : Nat) (t : Task),
      List.findIdx? (fun x => x.id = taskId) tasks = some idx →
      tasks[idx]? = some t → t.status ≠ TaskStatus.completed →
      dependentsOf tasks idx taskId = [] →
      deleteTask tasks taskId =
        ({ success := true, message := "Task deleted successfully" }, tasks.eraseIdx idx)) := by
  refine ⟨?_, ?_, ?_, ?_⟩
  · intro tasks taskId h
    simp [deleteTask, h]
  · intro tasks taskId idx t h1 h2 h3
    simp [deleteTask, h1, h2, h3]
  · intro tasks taskId idx t h1 h2 h3 h4
    simp [deleteTask, h1, h2, h3, h4]
  · intro tasks taskId idx t h1 h2 h3 h4
    simp [deleteTask, h1, h2, h3, h4]

/-- Claim C6: on a COMPLETED task, `updateTask` with any key outside
summary/relatedFiles returns null and leaves the store unchanged;
`updateTaskContent` and `updateTaskStatus` likewise fail without a write;
an update whose keys are only summary and/or relatedFiles goes through. -/
theorem C6_completed_update_policy :
    (∀ (tasks : List Task) (taskId : String) (updates : TaskUpdates) (now idx : Nat) (t : Task),
      List.findIdx? (fun x => x.id = taskId) tasks = some idx →
      tasks[idx]? = some t → t.status = TaskStatus.completed →
      disallowedFields updates ≠ [] →
      updateTask tasks taskId updates now = (none, tasks)) ∧
    (∀ (tasks : List Task) (taskId : String) (u : ContentUpdates) (now : Nat) (t : Task),
      getTaskById tasks taskId = some t → t.status = TaskStatus.completed →
      updateTaskContent tasks taskId u now =
        ({ success := false, message := "Cannot update completed task" }, tasks)) ∧
    (∀ (tasks : List Task) (taskId : String) (status : TaskStatus) (now idx : Nat) (t : Task),
      List.findIdx? (fun x => x.id = taskId) tasks = some idx →
      tasks[idx]? = some t → t.status = TaskStatus.completed →
      updateTaskStatus tasks taskId status now = (none, tasks)) ∧
    (∀ (tasks : List Task) (taskId : String) (updates : TaskUpdates) (now idx : Nat) (t : Task),
      List.findIdx? (fun x => x.id = taskId) tasks = some idx →
      tasks[idx]? = some t → t.status = TaskStatus.completed →
      disallowedFields updates = [] →
      updateTask tasks taskId updates now =
        (some (applyUpdates t updates now), tasks.set idx (applyUpdates t updates now))) := by
  refine ⟨?_, ?_, ?_, ?_⟩
  · intro tasks taskId updates now idx t h1 h2 h3 h4
    simp [updateTask, h1, h2, h3, h4]
  · intro tasks taskId u now t h1 h2
    simp [updateTaskContent, h1, h2]
  · intro tasks taskId status now idx t h1 h2 h3
    have h4 : disallowedFields
        { status := some status
          completedAt := if status = TaskStatus.completed then some now else none } ≠ [] := by
      by_cases hs : status = TaskStatus.completed <;>
        simp [disallowedFields, attemptedFields, allowedFields, hs]
    simp [updateTaskStatus, updateTask, h1, h2, h3, h4]
  · intro tasks taskId updates now idx t h1 h2 h3 h4
    simp [updateTask, h1, h2, h3, h4]

/-! ### Helper lemmas about the name map and the materialization loop -/

theorem mget_pair_mem {m : NameMap} {k v : String} (h : mget m k = some v) :
    (k, v) ∈ m := by
  unfold mget at h
  cases hf : m.find? (fun p => p.1 = k) with
  | none => rw [hf] at h; exact absurd h (by simp)
  | some p =>
    rw [hf] at h
    simp only [Option.map, Option.some.injEq] at h
    have hk : p.1 = k := by simpa using List.find?_some hf
    have hm : p ∈ m := List.mem_of_find?_eq_some hf
    have he : (k, v) = p := by
      cases p
      simp_all
    rwa [he]

theorem mget_mset_ne {m : NameMap} {k a v : String} (h : k ≠ a) :
    mget (mset m a v) k = mget m k := by
  unfold mget mset
  rw [List.find?_cons_of_neg]
  simpa using fun hc => h hc.symm

theorem foldl_mset_pairs {l : List Task} {m0 : NameMap} {p : String × String}
    (h : p ∈ l.foldl (fun m t => mset m t.name t.id) m0) :
    p ∈ m0 ∨ ∃ t ∈ l, p = (t.name, t.id) := by
  induction l generalizing m0 with
  | nil => exact Or.inl h
  | cons a l ih =>
    rcases ih h with h1 | h2
    · rcases List.mem_cons.mp h1 with h3 | h4
      · exact Or.inr ⟨a, List.mem_cons_self _ _, h3⟩
      · exact Or.inl h4
    · rcases h2 with ⟨t, ht, hp⟩
      exact Or.inr ⟨t, List.mem_cons_of_mem _ ht, hp⟩

theorem materialize_nil (ex : List Task) (mode : UpdateMode) (gar : Option String)
    (fresh : Nat → String) (now : Nat) (st : MatState) :
    materialize ex mode gar fresh now [] st = st := rfl

theorem materialize_cons (ex : List Task) (mode : UpdateMode) (gar : Option String)
    (fresh : Nat → String) (now : Nat) (d : TaskData) (l : List TaskData) (st : MatState) :
    materialize ex mode gar fresh now (d :: l) st =
      materialize ex mode gar fresh now l (materializeStep ex mode gar fresh now st d) := rfl

theorem materialize_append (ex : List Task) (mode : UpdateMode) (gar : Option String)
    (fresh : Nat → String) (now : Nat) (l1 l2 : List TaskData) (st : MatState) :
    materialize ex mode gar fresh now (l1 ++ l2) st =
      materialize ex mode gar fresh now l2 (materialize ex mode gar fresh now l1 st) :=
  List.foldl_append _ _ _ _

/-- Exhaustive description of one loop iteration: it is a creation, a
silent skip, or an in-place update of a found non-COMPLETED task. -/
theorem materializeStep_cases (ex : List Task) (mode : UpdateMode) (gar : Option String)
    (fresh : Nat → String) (now : Nat) (st : MatState) (d : TaskData) :
    materializeStep ex mode gar fresh now st d = createStep gar fresh now st d ∨
    materializeStep ex mode gar fresh now st d = st ∨
    ∃ eid taskToUpdate,
      materializeStep ex mode gar fresh now st d =
        { st with
          newTasks := st.newTasks ++ [updatedTaskOf taskToUpdate d gar now]
          tasksToKeep := st.tasksToKeep.filter (fun t => t.id ≠ eid) } := by
  unfold materializeStep
  split
  · split
    · split
      · split
        · exact Or.inr (Or.inr ⟨_, _, rfl⟩)
        · exact Or.inr (Or.inl rfl)
      · exact Or.inr (Or.inl rfl)
    · exact Or.inl rfl
  · exact Or.inl rfl

theorem materializeStep_newTasks (ex : List Task) (mode : UpdateMode) (gar : Option String)
    (fresh : Nat → String) (now : Nat) (st : MatState) (d : TaskData) :
    ∃ ts, (materializeStep ex mode gar fresh now st d).newTasks = st.newTasks ++ ts ∧
      ts.length ≤ 1 := by
  rcases materializeStep_cases ex mode gar fresh now st d with h | h | ⟨eid, tu, h⟩
  · exact ⟨[newTaskOf (fresh st.counter) d gar now], by rw [h]; exact ⟨rfl, by simp⟩⟩
  · exact ⟨[], by rw [h]; simp⟩
  · exact ⟨[updatedTaskOf tu d gar now], by rw [h]; exact ⟨rfl, by simp⟩⟩

theorem materializeStep_nameMap (ex : List Task) (mode : UpdateMode) (gar : Option String)
    (fresh : Nat → String) (now : Nat) (st : MatState) (d : TaskData) :
    (materializeStep ex mode gar fresh now st d).nameMap = st.nameMap ∨
    (materializeStep ex mode gar fresh now st d).nameMap =
      mset st.nameMap d.name (fresh st.counter) := by
  rcases materializeStep_cases ex mode gar fresh now st d with h | h | ⟨eid, tu, h⟩
  · exact Or.inr (by rw [h]; rfl)
  · exact Or.inl (by rw [h])
  · exact Or.inl (by rw [h])

theorem materialize_newTasks_mono (ex : List Task) (mode : UpdateMode) (gar : Option String)
    (fresh : Nat → String) (now : Nat) (l : List TaskData) (st : MatState) :
    ∃ ts, (materialize ex mode gar fresh now l st).newTasks = st.newTasks ++ ts ∧
      ts.length ≤ l.length := by
  induction l generalizing st with
  | nil => exact ⟨[], by simp [materialize_nil]⟩
  | cons d l ih =>
    rw [materialize_cons]
    rcases materializeStep_newTasks ex mode gar fresh now st d with ⟨ts0, h0, hl0⟩
    rcases ih (materializeStep ex mode gar fresh now st d) with ⟨ts1, h1, hl1⟩
    refine ⟨ts0 ++ ts1, ?_, ?_⟩
    · rw [h1, h0, List.append_assoc]
    · simp only [List.length_append, List.length_cons]
      omega

theorem materialize_nameMap_stable (ex : List Task) (mode : UpdateMode) (gar : Option String)
    (fresh : Nat → String) (now : Nat) (l : List TaskData) (st : MatState) (B : String)
    (hB : B ∉ l.map (fun d => d.name)) :
    mget (materialize ex mode gar fresh now l st).nameMap B = mget st.nameMap B := by
  induction l generalizing st with
  | nil => rfl
  | cons d l ih =>
    simp only [List.map_cons, List.mem_cons, not_or] at hB
    rw [materialize_cons, ih _ (by simpa using hB.2)]
    rcases materializeStep_nameMap ex mode gar fresh now st d with h | h
    · rw [h]
    · rw [h, mget_mset_ne hB.1]

theorem materializeStep_nonsel (ex : List Task) {mode : UpdateMode} (gar : Option String)
    (fresh : Nat → String) (now : Nat) (st : MatState) (d : TaskData)
    (h : mode ≠ UpdateMode.selective) :
    materializeStep ex mode gar fresh now st d = createStep gar fresh now st d := by
  unfold materializeStep
  rw [if_neg h]

theorem materialize_nonsel_keep (ex : List Task) {mode : UpdateMode} (gar : Option String)
    (fresh : Nat → String) (now : Nat) (h : mode ≠ UpdateMode.selective) :
    ∀ (l : List TaskData) (st : MatState),
      (materialize ex mode gar fresh now l st).tasksToKeep = st.tasksToKeep := by
  intro l
  induction l with
  | nil => intro st; rfl
  | cons d l ih =>
    intro st
    rw [materialize_cons, ih, materializeStep_nonsel ex gar fresh now st d h]
    rfl

theorem materialize_nonsel_len (ex : List Task) {mode : UpdateMode} (gar : Option String)
    (fresh : Nat → String) (now : Nat) (h : mode ≠ UpdateMode.selective) :
    ∀ (l : List TaskData) (st : MatState),
      (materialize ex mode gar fresh now l st).newTasks.length =
        st.newTasks.length + l.length := by
  intro l
  induction l with
  | nil => intro st; rfl
  | cons d l ih =>
    intro st
    rw [materialize_cons, ih, materializeStep_nonsel ex gar fresh now st d h]
    simp [createStep]
    omega

theorem materialize_nonsel_deps (ex : List Task) {mode : UpdateMode} (gar : Option String)
    (fresh : Nat → String) (now : Nat) (h : mode ≠ UpdateMode.selective) :
    ∀ (l : List TaskData) (st : MatState),
      (∀ t ∈ st.newTasks, t.dependencies = []) →
      ∀ t ∈ (materialize ex mode gar fresh now l st).newTasks, t.dependencies = [] := by
  intro l
  induction l with
  | nil => intro st h0; exact h0
  | cons d l ih =>
    intro st h0
    rw [materialize_cons, materializeStep_nonsel ex gar fresh now st d h]
    refine ih _ ?_
    intro t ht
    simp only [createStep, List.mem_append, List.mem_singleton] at ht
    rcases ht with ht | ht
    · exact h0 t ht
    · rw [ht]; rfl

theorem materialize_nonsel_mapInv (ex : List Task) {mode : UpdateMode} (gar : Option String)
    (fresh : Nat → String) (now : Nat) (h : mode ≠ UpdateMode.selective) :
    ∀ (l : List TaskData) (st : MatState),
      (∀ p ∈ st.nameMap, ∃ t, (t ∈ st.tasksToKeep ∨ t ∈ st.newTasks) ∧ t.id = p.2) →
      ∀ p ∈ (materialize ex mode gar fresh now l st).nameMap,
        ∃ t, (t ∈ (materialize ex mode gar fresh now l st).tasksToKeep ∨
              t ∈ (materialize ex mode gar fresh now l st).newTasks) ∧ t.id = p.2 := by
  intro l
  induction l with
  | nil => intro st h0; exact h0
  | cons d l ih =>
    intro st h0
    rw [materialize_cons, materializeStep_nonsel ex gar fresh now st d h]
    refine ih _ ?_
    intro p hp
    simp only [createStep, mset, List.mem_cons] at hp
    rcases hp with hp | hp
    · refine ⟨newTaskOf (fresh st.counter) d gar now, Or.inr ?_, by rw [hp]; rfl⟩
      simp [createStep]
    · rcases h0 p hp with ⟨t, ht, hid⟩
      refine ⟨t, ?_, hid⟩
      rcases ht with ht | ht
      · exact Or.inl ht
      · exact Or.inr (by simp [createStep, ht])

/-- The selective branch when the matched task is COMPLETED (or, more
precisely, found and COMPLETED): the loop body does nothing — no update
and no creation. -/
theorem materializeStep_skip (ex : List Task) (gar : Option String)
    (fresh : Nat → String) (now : Nat) (st : MatState) (d : TaskData)
    {eid : String} {e : Task}
    (hg : mget st.nameMap d.name = some eid)
    (hf : ex.find? (fun t => t.id = eid) = some e)
    (hs : e.status = TaskStatus.completed) :
    materializeStep ex UpdateMode.selective gar fresh now st d = st := by
  simp [materializeStep, hg, hf, hs]

/-- The selective branch when the matched task exists and is not
COMPLETED: in-place update appended to `newTasks`. -/
theorem materializeStep_update (ex : List Task) (gar : Option String)
    (fresh : Nat → String) (now : Nat) (st : MatState) (d : TaskData)
    {eid : String} {e : Task}
    (hg : mget st.nameMap d.name = some eid)
    (hf : ex.find? (fun t => t.id = eid) = some e)
    (hs : e.status ≠ TaskStatus.completed) :
    materializeStep ex UpdateMode.selective gar fresh now st d =
      { st with
        newTasks := st.newTasks ++ [updatedTaskOf e d gar now]
        tasksToKeep := st.tasksToKeep.filter (fun t => t.id ≠ eid) } := by
  simp [materializeStep, hg, hf, hs]

/-! ### Helper lemmas about the dependency fix-up pass -/

theorem fixupGo_nil (allIds : List String) (m : NameMap) (i : Nat) (nts : List Task) :
    fixupGo allIds m [] i nts = some nts := rfl

theorem fixupGo_cons_nodeps (allIds : List String) (m : NameMap) {d : TaskData}
    (rest : List TaskData) (i : Nat) (nts : List Task) (hd : d.dependencies = []) :
    fixupGo allIds m (d :: rest) i nts = fixupGo allIds m rest (i + 1) nts := by
  conv_lhs => unfold fixupGo
  rw [if_pos hd]

theorem fixupGo_cons_oob (allIds : List String) (m : NameMap) {d : TaskData}
    (rest : List TaskData) {i : Nat} {nts : List Task} (hd : d.dependencies ≠ [])
    (hi : nts[i]? = none) :
    fixupGo allIds m (d :: rest) i nts = none := by
  conv_lhs => unfold fixupGo
  rw [if_neg hd, hi]

theorem fixupGo_cons_set (allIds : List String) (m : NameMap) {d : TaskData}
    (rest : List TaskData) {i : Nat} {nts : List Task} {nt : Task}
    (hd : d.dependencies ≠ []) (hi : nts[i]? = some nt) :
    fixupGo allIds m (d :: rest) i nts =
      fixupGo allIds m rest (i + 1)
        (nts.set i { nt with dependencies := resolveDeps allIds m d.dependencies }) := by
  conv_lhs => unfold fixupGo
  rw [if_neg hd, hi]

/-- The fix-up pass terminates normally when the window it indexes stays
inside `newTasks` (in particular whenever `newTasks` is as long as the
spec list, as in every non-selective run). -/
theorem fixupGo_total (allIds : List String) (m : NameMap) :
    ∀ (specs : List TaskData) (i : Nat) (nts : List Task),
      i + specs.length ≤ nts.length →
      ∃ out, fixupGo allIds m specs i nts = some out := by
  intro specs
  induction specs with
  | nil => exact fun i nts _ => ⟨nts, rfl⟩
  | cons d rest ih =>
    intro i nts h
    simp only [List.length_cons] at h
    by_cases hd : d.dependencies = []
    · rw [fixupGo_cons_nodeps allIds m rest i nts hd]
      exact ih (i + 1) nts (by omega)
    · have hi : i < nts.length := by omega
      rw [fixupGo_cons_set allIds m rest hd (List.getElem?_eq_getElem hi)]
      exact ih (i + 1) _ (by rw [List.length_set]; omega)

/-- If some spec at position `j` carries a non-empty dependency list while
the task window has run out (`nts.length ≤ i + j`), the fix-up pass hits
the `undefined` element and the whole call crashes. -/
theorem fixupGo_none (allIds : List String) (m : NameMap) :
    ∀ (specs : List TaskData) (i : Nat) (nts : List Task) (j : Nat) (d : TaskData),
      specs[j]? = some d → d.dependencies ≠ [] → nts.length ≤ i + j →
      fixupGo allIds m specs i nts = none := by
  intro specs
  induction specs with
  | nil => intro i nts j d hj; simp at hj
  | cons d0 rest ih =>
    intro i nts j d hj hd hlen
    by_cases hd0 : d0.dependencies = []
    · rw [fixupGo_cons_nodeps allIds m rest i nts hd0]
      cases j with
      | zero =>
        have : d0 = d := by simpa using hj
        exact absurd (this ▸ hd0) hd
      | succ j2 =>
        exact ih (i + 1) nts j2 d (by simpa using hj) hd (by omega)
    · cases hnt : nts[i]? with
      | none => exact fixupGo_cons_oob allIds m rest hd0 hnt
      | some nt =>
        have hi : i < nts.length := by
          rcases List.getElem?_eq_some.mp hnt with ⟨h1, _⟩
          exact h1
        rw [fixupGo_cons_set allIds m rest hd0 hnt]
        cases j with
        | zero => omega
        | succ j2 =>
          exact ih (i + 1) _ j2 d (by simpa using hj) hd (by rw [List.length_set]; omega)

/-- Positional description of a successful fix-up pass: it preserves the
length, and the task at each position agrees with the materialized task at
that position on every field except `dependencies`; the dependency list is
either untouched or some `resolveDeps` output. -/
theorem fixupGo_point (allIds : List String) (m : NameMap) :
    ∀ (specs : List TaskData) (i : Nat) (nts out : List Task),
      fixupGo allIds m specs i nts = some out →
      out.length = nts.length ∧
      ∀ k, k < nts.length →
        ∃ s t, nts[k]? = some s ∧ out[k]? = some t ∧
          t = { s with dependencies := t.dependencies } ∧
          (t.dependencies = s.dependencies ∨
            ∃ ds, t.dependencies = resolveDeps allIds m ds) := by
  intro specs
  induction specs with
  | nil =>
    intro i nts out h
    rw [fixupGo_nil] at h
    cases h
    refine ⟨rfl, ?_⟩
    intro k hk
    exact ⟨nts[k], nts[k], List.getElem?_eq_getElem hk, List.getElem?_eq_getElem hk,
      rfl, Or.inl rfl⟩
  | cons d rest ih =>
    intro i nts out h
    by_cases hd : d.dependencies = []
    · rw [fixupGo_cons_nodeps allIds m rest i nts hd] at h
      exact ih (i + 1) nts out h
    · cases hnt : nts[i]? with
      | none => rw [fixupGo_cons_oob allIds m rest hd hnt] at h; cases h
      | some nt =>
        have hi : i < nts.length := by
          rcases List.getElem?_eq_some.mp hnt with ⟨h1, _⟩
          exact h1
        rw [fixupGo_cons_set allIds m rest hd hnt] at h
        obtain ⟨hlen, hpt⟩ := ih (i + 1) _ out h
        rw [List.length_set] at hlen
        refine ⟨hlen, ?_⟩
        intro k hk
        obtain ⟨s, t, hs, ht, hrec, hdeps⟩ := hpt k (by rw [List.length_set]; exact hk)
        by_cases hki : i = k
        · subst hki
          rw [List.getElem?_set, if_pos rfl, if_pos hi] at hs
          cases hs
          refine ⟨nt, t, hnt, ht, hrec, ?_⟩
          rcases hdeps with hdeps | hdeps
          · exact Or.inr ⟨d.dependencies, hdeps⟩
          · exact Or.inr hdeps
        · rw [List.getElem?_set, if_neg hki] at hs
          exact ⟨s, t, hs, ht, hrec, hdeps⟩

/-- Every dependency produced by `resolveDeps` refers to `allIds`,
provided every value of the name map does. -/
theorem resolveDeps_sub (allIds : List String) (m : NameMap) (ds : List String)
    (hm : ∀ p ∈ m, p.2 ∈ allIds) :
    ∀ dep ∈ resolveDeps allIds m ds, dep.taskId ∈ allIds := by
  intro dep hdep
  rcases List.mem_filterMap.mp hdep with ⟨a, _, ha⟩
  by_cases hu : isUUIDShape a = true
  · rw [if_pos hu] at ha
    by_cases hc : allIds.contains a = true
    · rw [if_pos hc] at ha
      cases ha
      exact List.elem_iff.mp hc
    · rw [if_neg hc] at ha
      cases ha
  · rw [if_neg hu] at ha
    cases hg : mget m a with
    | none => rw [hg] at ha; cases ha
    | some tid =>
      rw [hg] at ha
      cases ha
      exact hm (a, tid) (mget_pair_mem hg)

theorem materializedState_eq (ex : List Task) (specs : List TaskData) (mode : UpdateMode)
    (gar : Option String) (fresh : Nat → String) (now : Nat) :
    materializedState ex specs mode gar fresh now =
      materialize ex mode gar fresh now specs
        { tasksToKeep := keptTasks ex specs mode
          nameMap := seedNameMap ex (keptTasks ex specs mode) mode
          newTasks := []
          counter := 0 } := rfl

/-- Inversion of a successful batch run into its fix-up pass and the
persisted union. -/
theorem batch_some_inv {ex : List Task} {specs : List TaskData} {mode : UpdateMode}
    {gar : Option String} {fresh : Nat → String} {now : Nat} {allT nts : List Task}
    (h : batchCreateOrUpdateTasks ex specs mode gar fresh now = some (allT, nts)) :
    fixupGo (batchAllIds ex specs mode gar fresh now)
        (materializedState ex specs mode gar fresh now).nameMap specs 0
        (materializedState ex specs mode gar fresh now).newTasks = some nts ∧
      allT = (materializedState ex specs mode gar fresh now).tasksToKeep ++ nts := by
  unfold batchCreateOrUpdateTasks at h
  cases hfix : fixupGo (batchAllIds ex specs mode gar fresh now)
      (materializedState ex specs mode gar fresh now).nameMap specs 0
      (materializedState ex specs mode gar fresh now).newTasks with
  | none => rw [hfix] at h; cases h
  | some out =>
    rw [hfix] at h
    simp only [Option.some.injEq, Prod.mk.injEq] at h
    obtain ⟨h1, h2⟩ := h
    subst h2
    exact ⟨rfl, h1.symm⟩

/-- Claim C1, amended: in the non-selective modes (append, overwrite,
clearAllTasks) the batch always succeeds and every newly created task's
dependencies reference identifiers of tasks in the final persisted set;
the counterexample shows the claim fails for kept tasks, whose dependency
lists are never fixed up. -/
theorem C1_new_task_dependency_closure (ex : List Task) (specs : List TaskData)
    (mode : UpdateMode) (gar : Option String) (fresh : Nat → String) (now : Nat)
    (hm : mode ≠ UpdateMode.selective) :
    ∃ allT nts,
      batchCreateOrUpdateTasks ex specs mode gar fresh now = some (allT, nts) ∧
      ∀ t ∈ nts, ∀ dep ∈ t.dependencies, ∃ u ∈ allT, u.id = dep.taskId := by
  have hlen : (materializedState ex specs mode gar fresh now).newTasks.length =
      specs.length := by
    rw [materializedState_eq, materialize_nonsel_len ex gar fresh now hm]
    simp
  obtain ⟨out, hfix⟩ := fixupGo_total (batchAllIds ex specs mode gar fresh now)
      (materializedState ex specs mode gar fresh now).nameMap specs 0
      (materializedState ex specs mode gar fresh now).newTasks (by omega)
  obtain ⟨hl, hpt⟩ := fixupGo_point _ _ specs 0 _ out hfix
  have hdeps_nil : ∀ s ∈ (materializedState ex specs mode gar fresh now).newTasks,
      s.dependencies = [] := by
    rw [materializedState_eq]
    exact materialize_nonsel_deps ex gar fresh now hm specs _ (by simp)
  have hminv : ∀ p ∈ (materializedState ex specs mode gar fresh now).nameMap,
      p.2 ∈ batchAllIds ex specs mode gar fresh now := by
    intro p hp
    rw [materializedState_eq] at hp
    have hseed : ∀ q ∈ seedNameMap ex (keptTasks ex specs mode) mode,
        ∃ t, (t ∈ keptTasks ex specs mode ∨ t ∈ ([] : List Task)) ∧ t.id = q.2 := by
      intro q hq
      unfold seedNameMap at hq
      rw [if_neg hm] at hq
      rcases foldl_mset_pairs hq with h0 | ⟨t, ht, hqt⟩
      · simp at h0
      · exact ⟨t, Or.inl ht, by rw [hqt]⟩
    have hx := materialize_nonsel_mapInv ex gar fresh now hm specs _ hseed p hp
    rcases hx with ⟨t, ht, hid⟩
    unfold batchAllIds
    rw [materializedState_eq]
    rcases ht with ht | ht
    · exact List.mem_map.mpr ⟨t, List.mem_append_left _ ht, hid⟩
    · exact List.mem_map.mpr ⟨t, List.mem_append_right _ ht, hid⟩
  refine ⟨(materializedState ex specs mode gar fresh now).tasksToKeep ++ out, out, ?_, ?_⟩
  · unfold batchCreateOrUpdateTasks
    rw [hfix]
  · intro t ht dep hdep
    obtain ⟨k, hkl0, hke⟩ := List.getElem_of_mem ht
    have hk : out[k]? = some t := by rw [List.getElem?_eq_getElem hkl0, hke]
    have hkl : k < (materializedState ex specs mode gar fresh now).newTasks.length := by
      rw [← hl]
      exact hkl0
    obtain ⟨s, t2, hs, ht2, hrec, hdcase⟩ := hpt k hkl
    have ht2t : t2 = t := by
      rw [hk] at ht2
      exact (Option.some.inj ht2).symm
    subst ht2t
    rcases hdcase with hcase | ⟨ds, hcase⟩
    · rw [hcase, hdeps_nil s (List.getElem?_mem hs)] at hdep
      exact absurd hdep (by simp)
    · have hsub := resolveDeps_sub (batchAllIds ex specs mode gar fresh now)
          (materializedState ex specs mode gar fresh now).nameMap ds hminv dep
          (by rw [← hcase]; exact hdep)
      unfold batchAllIds at hsub
      obtain ⟨u, hu, huid⟩ := List.mem_map.mp hsub
      rcases List.mem_append.mp hu with hukeep | hunew
      · exact ⟨u, List.mem_append_left _ hukeep, huid⟩
      · obtain ⟨k2, hk2l, hk2e⟩ := List.getElem_of_mem hunew
        obtain ⟨s2, t3, hs2, ht3, hrec3, hd3⟩ := hpt k2 hk2l
        have hs2u : s2 = u := by
          rw [List.getElem?_eq_getElem hk2l, hk2e] at hs2
          exact (Option.some.inj hs2).symm
        have hid3 : t3.id = u.id := by rw [hrec3, hs2u]
        exact ⟨t3, List.mem_append_right _ (List.getElem?_mem ht3), hid3.trans huid⟩

/-- Claim C3: the fix-up loop indexes `newTasks` by the spec position, so
whenever the materialization produced fewer tasks than specs (selective
mode with a COMPLETED name match) and some spec at a position past the end
of `newTasks` has a non-empty dependency list, the run crashes (`none`);
and concretely, after a skip the later specs' resolved dependencies land
on the wrong tasks: in the demo batch the spec named `Y` (which asks to
depend on `Z`) ends with no dependencies while the task named `Z` ends
depending on itself. -/
theorem C3_fixup_misalignment :
    (∀ (ex : List Task) (specs : List TaskData) (gar : Option String)
        (fresh : Nat → String) (now : Nat) (j : Nat) (d : TaskData),
      specs[j]? = some d → d.dependencies ≠ [] →
      (materializedState ex specs UpdateMode.selective gar fresh now).newTasks.length ≤ j →
      batchCreateOrUpdateTasks ex specs UpdateMode.selective gar fresh now = none) ∧
    ((materializedState [taskXCompleted] [specX, specYdepZ, specZ] UpdateMode.selective
        none demoFresh 5).newTasks.length = 2 ∧
      [specX, specYdepZ, specZ].length = 3 ∧
      specYdepZ.dependencies = ["Z"] ∧
      batchCreateOrUpdateTasks [taskXCompleted] [specX, specYdepZ, specZ]
          UpdateMode.selective none demoFresh 5 =
        some ([newTaskOf (demoFresh 0) specYdepZ none 5,
               { newTaskOf (demoFresh 1) specZ none 5 with
                 dependencies := [⟨demoFresh 1⟩] }],
              [newTaskOf (demoFresh 0) specYdepZ none 5,
               { newTaskOf (demoFresh 1) specZ none 5 with
                 dependencies := [⟨demoFresh 1⟩] }])) := by
  constructor
  · intro ex specs gar fresh now j d hj hd hlen
    unfold batchCreateOrUpdateTasks
    rw [fixupGo_none _ _ specs 0 _ j d hj hd (by omega)]
  · refine ⟨by decide, by decide, by decide, by decide⟩

/-- Claim C2, amended: in selective mode an incoming spec whose name maps
to an existing COMPLETED task is silently skipped — neither updated nor
re-created — so a successful batch returns strictly fewer tasks than it
received specs. -/
theorem C2_completed_name_match_skipped (ex : List Task) (pre post : List TaskData)
    (d : TaskData) (gar : Option String) (fresh : Nat → String) (now : Nat)
    (eid : String) (e : Task)
    (hpre : d.name ∉ pre.map (fun s => s.name))
    (hseed : mget (seedNameMap ex (keptTasks ex (pre ++ d :: post) UpdateMode.selective)
        UpdateMode.selective) d.name = some eid)
    (hfind : ex.find? (fun t => t.id = eid) = some e)
    (hcomp : e.status = TaskStatus.completed) :
    ∀ allT nts, batchCreateOrUpdateTasks ex (pre ++ d :: post) UpdateMode.selective
        gar fresh now = some (allT, nts) →
      nts.length < (pre ++ d :: post).length := by
  intro allT nts hbatch
  obtain ⟨hfix, _⟩ := batch_some_inv hbatch
  obtain ⟨hl, _⟩ := fixupGo_point _ _ _ 0 _ nts hfix
  have hg : mget (materialize ex UpdateMode.selective gar fresh now pre
      { tasksToKeep := keptTasks ex (pre ++ d :: post) UpdateMode.selective
        nameMap := seedNameMap ex (keptTasks ex (pre ++ d :: post) UpdateMode.selective)
          UpdateMode.selective
        newTasks := []
        counter := 0 }).nameMap d.name = some eid := by
    rw [materialize_nameMap_stable ex UpdateMode.selective gar fresh now pre _ d.name hpre]
    exact hseed
  have hstF : materializedState ex (pre ++ d :: post) UpdateMode.selective gar fresh now =
      materialize ex UpdateMode.selective gar fresh now post
        (materialize ex UpdateMode.selective gar fresh now pre
          { tasksToKeep := keptTasks ex (pre ++ d :: post) UpdateMode.selective
            nameMap := seedNameMap ex (keptTasks ex (pre ++ d :: post) UpdateMode.selective)
              UpdateMode.selective
            newTasks := []
            counter := 0 }) := by
    rw [materializedState_eq, materialize_append, materialize_cons,
      materializeStep_skip ex gar fresh now _ d hg hfind hcomp]
  obtain ⟨ts1, he1, hl1⟩ := materialize_newTasks_mono ex UpdateMode.selective gar fresh now
    pre { tasksToKeep := keptTasks ex (pre ++ d :: post) UpdateMode.selective
          nameMap := seedNameMap ex (keptTasks ex (pre ++ d :: post) UpdateMode.selective)
            UpdateMode.selective
          newTasks := []
          counter := 0 }
  obtain ⟨ts2, he2, hl2⟩ := materialize_newTasks_mono ex UpdateMode.selective gar fresh now
    post (materialize ex UpdateMode.selective gar fresh now pre
      { tasksToKeep := keptTasks ex (pre ++ d :: post) UpdateMode.selective
        nameMap := seedNameMap ex (keptTasks ex (pre ++ d :: post) UpdateMode.selective)
          UpdateMode.selective
        newTasks := []
        counter := 0 })
  have hbound : (materializedState ex (pre ++ d :: post) UpdateMode.selective gar fresh
      now).newTasks.length ≤ pre.length + post.length := by
    rw [hstF, he2, he1]
    simp only [List.length_append, List.nil_append]
    omega
  rw [hl]
  simp only [List.length_append, List.length_cons]
  omega

theorem getElem?_append_cons {α : Type} (l1 : List α) (a : α) (l2 : List α) :
    (l1 ++ a :: l2)[l1.length]? = some a := by
  rw [List.getElem?_append, if_neg (lt_irrefl l1.length)]
  simp

/-- Claim C4: in selective mode, a spec whose name resolves (through the
seeded name map) to an existing non-COMPLETED task produces, in the
returned list of any successful run, a task that keeps the existing
identifier and createdAt while name, description, notes,
implementationGuide, verificationCriteria and analysisResult come from the
spec and the batch, and updatedAt is the time of the call. -/
theorem C4_selective_update_preserves_identity (ex : List Task) (pre post : List TaskData)
    (d : TaskData) (gar : Option String) (fresh : Nat → String) (now : Nat)
    (eid : String) (e : Task) (allT nts : List Task)
    (hpre : d.name ∉ pre.map (fun s => s.name))
    (hseed : mget (seedNameMap ex (keptTasks ex (pre ++ d :: post) UpdateMode.selective)
        UpdateMode.selective) d.name = some eid)
    (hfind : ex.find? (fun t => t.id = eid) = some e)
    (hcomp : e.status ≠ TaskStatus.completed)
    (hbatch : batchCreateOrUpdateTasks ex (pre ++ d :: post) UpdateMode.selective
        gar fresh now = some (allT, nts)) :
    ∃ u ∈ nts, u.id = e.id ∧ u.createdAt = e.createdAt ∧ u.name = d.name ∧
      u.description = d.description ∧ u.notes = d.notes ∧
      u.implementationGuide = d.implementationGuide ∧
      u.verificationCriteria = d.verificationCriteria ∧
      u.analysisResult = gar ∧ u.updatedAt = now := by
  obtain ⟨hfix, _⟩ := batch_some_inv hbatch
  obtain ⟨hl, hpt⟩ := fixupGo_point _ _ _ 0 _ nts hfix
  set st0 : MatState :=
    { tasksToKeep := keptTasks ex (pre ++ d :: post) UpdateMode.selective
      nameMap := seedNameMap ex (keptTasks ex (pre ++ d :: post) UpdateMode.selective)
        UpdateMode.selective
      newTasks := []
      counter := 0 } with hst0
  have hg : mget (materialize ex UpdateMode.selective gar fresh now pre st0).nameMap
      d.name = some eid := by
    rw [materialize_nameMap_stable ex UpdateMode.selective gar fresh now pre st0 d.name hpre,
      hst0]
    exact hseed
  set st1 := materialize ex UpdateMode.selective gar fresh now pre st0 with hst1
  have hstep : materializeStep ex UpdateMode.selective gar fresh now st1 d =
      { st1 with
        newTasks := st1.newTasks ++ [updatedTaskOf e d gar now]
        tasksToKeep := st1.tasksToKeep.filter (fun t => t.id ≠ eid) } :=
    materializeStep_update ex gar fresh now st1 d hg hfind hcomp
  have hstF : materializedState ex (pre ++ d :: post) UpdateMode.selective gar fresh now =
      materialize ex UpdateMode.selective gar fresh now post
        { st1 with
          newTasks := st1.newTasks ++ [updatedTaskOf e d gar now]
          tasksToKeep := st1.tasksToKeep.filter (fun t => t.id ≠ eid) } := by
    rw [materializedState_eq, materialize_append, materialize_cons, ← hst0, ← hst1, hstep]
  obtain ⟨ts2, he2, _⟩ := materialize_newTasks_mono ex UpdateMode.selective gar fresh now
    post { st1 with
           newTasks := st1.newTasks ++ [updatedTaskOf e d gar now]
           tasksToKeep := st1.tasksToKeep.filter (fun t => t.id ≠ eid) }
  have hwin : (materializedState ex (pre ++ d :: post) UpdateMode.selective gar fresh
      now).newTasks[st1.newTasks.length]? = some (updatedTaskOf e d gar now) := by
    rw [hstF, he2]
    show ((st1.newTasks ++ [updatedTaskOf e d gar now]) ++ ts2)[st1.newTasks.length]? =
      some (updatedTaskOf e d gar now)
    rw [List.append_assoc, List.singleton_append]
    exact getElem?_append_cons _ _ _
  have hjlt : st1.newTasks.length <
      (materializedState ex (pre ++ d :: post) UpdateMode.selective gar fresh
        now).newTasks.length := by
    rcases List.getElem?_eq_some.mp hwin with ⟨h1, _⟩
    exact h1
  obtain ⟨s, t, hs, ht, hrec, _⟩ := hpt _ hjlt
  have hsu : s = updatedTaskOf e d gar now := by
    rw [hwin] at hs
    exact (Option.some.inj hs).symm
  refine ⟨t, List.getElem?_mem ht, ?_⟩
  rw [hrec, hsu]
  simp [updatedTaskOf]

/-! ### Witnesses instantiating the hypothesis-carrying theorems -/

/-- Witness for claim C6 at a concrete COMPLETED task. -/
theorem C6_completed_update_policy_witness :
    updateTask [taskCDone] "00000000-0000-4000-8000-0000000000aa" updName 7 =
      (none, [taskCDone]) ∧
    updateTaskContent [taskCDone] "00000000-0000-4000-8000-0000000000aa" cuDesc 7 =
      ({ success := false, message := "Cannot update completed task" }, [taskCDone]) ∧
    updateTaskStatus [taskCDone] "00000000-0000-4000-8000-0000000000aa"
        TaskStatus.inProgress 7 = (none, [taskCDone]) ∧
    updateTask [taskCDone] "00000000-0000-4000-8000-0000000000aa" updSummary 7 =
      (some (applyUpdates taskCDone updSummary 7),
       [taskCDone].set 0 (applyUpdates taskCDone updSummary 7)) :=
  ⟨C6_completed_update_policy.1 [taskCDone] "00000000-0000-4000-8000-0000000000aa"
      updName 7 0 taskCDone (by decide) (by decide) (by decide) (by decide),
   C6_completed_update_policy.2.1 [taskCDone] "00000000-0000-4000-8000-0000000000aa"
      cuDesc 7 taskCDone (by decide) (by decide),
   C6_completed_update_policy.2.2.1 [taskCDone] "00000000-0000-4000-8000-0000000000aa"
      TaskStatus.inProgress 7 0 taskCDone (by decide) (by decide) (by decide),
   C6_completed_update_policy.2.2.2 [taskCDone] "00000000-0000-4000-8000-0000000000aa"
      updSummary 7 0 taskCDone (by decide) (by decide) (by decide) (by decide)⟩

/-- Witness for claim C7 covering all four branches. -/
theorem C7_deleteTask_witness :
    deleteTask [] "zzz" = ({ success := false, message := "Task not found" }, []) ∧
    deleteTask [taskCDone] "00000000-0000-4000-8000-0000000000aa" =
      ({ success := false, message := "Cannot delete completed task" }, [taskCDone]) ∧
    deleteTask [taskPPending, taskQDependsP] "00000000-0000-4000-8000-0000000000bb" =
      ({ success := false
         message := "Cannot delete this task because the following tasks depend on it: "
           ++ dependentNames (dependentsOf [taskPPending, taskQDependsP] 0
                "00000000-0000-4000-8000-0000000000bb") },
       [taskPPending, taskQDependsP]) ∧
    deleteTask [taskPPending] "00000000-0000-4000-8000-0000000000bb" =
      ({ success := true, message := "Task deleted successfully" },
       [taskPPending].eraseIdx 0) :=
  ⟨C7_deleteTask.1 [] "zzz" (by decide),
   C7_deleteTask.2.1 [taskCDone] "00000000-0000-4000-8000-0000000000aa" 0 taskCDone
      (by decide) (by decide) (by decide),
   C7_deleteTask.2.2.1 [taskPPending, taskQDependsP]
      "00000000-0000-4000-8000-0000000000bb" 0 taskPPending
      (by decide) (by decide) (by decide) (by decide),
   C7_deleteTask.2.2.2 [taskPPending] "00000000-0000-4000-8000-0000000000bb" 0 taskPPending
      (by decide) (by decide) (by decide) (by decide)⟩

/-- Witness for claim C8 on an empty and a non-empty store. -/
theorem C8_clearAllTasks_witness :
    clearAllTasks [] "2026-10-12T10:11:12.345Z" =
      ({ success := true, message := "No tasks to clear" }, [], none) ∧
    clearAllTasks [taskCDone, taskPPending] "2026-10-12T10:11:12.345Z" =
      ({ success := true
         message := "Successfully cleared all tasks, " ++
           toString ([taskCDone, taskPPending] : List Task).length ++
           " tasks deleted, backed up " ++
           toString (([taskCDone, taskPPending] : List Task).filter
             (fun t => t.status = TaskStatus.completed)).length ++
           " completed tasks to memory directory"
         backupFile := some (backupFileNameOf "2026-10-12T10:11:12.345Z") },
       [],
       some (backupFileNameOf "2026-10-12T10:11:12.345Z",
         ([taskCDone, taskPPending] : List Task).filter
           (fun t => t.status = TaskStatus.completed))) :=
  ⟨C8_clearAllTasks.1 [] "2026-10-12T10:11:12.345Z" (by decide),
   C8_clearAllTasks.2 [taskCDone, taskPPending] "2026-10-12T10:11:12.345Z" (by decide)⟩

/-- Witness for claim C9 on a 12-element result set and on an empty one. -/
theorem C9_pagination_witness :
    ((paginateSearchResults (List.replicate 12 taskPPending) 1 5).1.length = 5 ∧
     (paginateSearchResults (List.replicate 12 taskPPending) 1 5).2.hasMore = true ∧
     (paginateSearchResults (List.replicate 12 taskPPending) 3 5).1.length = 2 ∧
     (paginateSearchResults (List.replicate 12 taskPPending) 3 5).2.hasMore = false ∧
     (paginateSearchResults (List.replicate 12 taskPPending) 99 5).2.currentPage = 3 ∧
     (paginateSearchResults (List.replicate 12 taskPPending) 99 5).1.length = 2) ∧
    (1 ≤ (paginateSearchResults [] 3 7).2.currentPage ∧
     (paginateSearchResults [] 3 7).2.currentPage =
       max 1 (min 3 (paginateSearchResults [] 3 7).2.totalPages) ∧
     1 ≤ (paginateSearchResults [] 3 7).2.totalPages ∧
     (paginateSearchResults [] 3 7).2.totalResults = ([] : List Task).length) :=
  ⟨C9_pagination.1 (List.replicate 12 taskPPending) (by decide),
   C9_pagination.2 [] 3 7 (by decide)⟩

/-- Witness for claim C10: the characterization applied at a concrete
store and query. -/
theorem C10_keyword_filter_witness :
    taskLoginBug ∈ filterCurrentTasks [taskLoginBug] "login" false :=
  (C10_keyword_filter.1 [taskLoginBug] "login" taskLoginBug).mpr (by decide)

/-- Witness for the amended claim C1 at a concrete append-mode batch. -/
theorem C1_new_task_dependency_closure_witness :
    ∃ allT nts,
      batchCreateOrUpdateTasks [] [specA, specB] UpdateMode.append none demoFresh 5 =
        some (allT, nts) ∧
      ∀ t ∈ nts, ∀ dep ∈ t.dependencies, ∃ u ∈ allT, u.id = dep.taskId :=
  C1_new_task_dependency_closure [] [specA, specB] UpdateMode.append none demoFresh 5
    (by decide)

/-- Witness for the amended claim C2 at the concrete skipped batch. -/
theorem C2_completed_name_match_skipped_witness :
    ([] : List Task).length < ([specX] : List TaskData).length :=
  C2_completed_name_match_skipped [taskXCompleted] [] [] specX none demoFresh 5 "x-id"
    taskXCompleted (by decide) (by decide) (by decide) (by decide) [] [] (by decide)

/-- Witness for claim C3: the concrete batch whose third spec carries a
dependency list while only two tasks were materialized crashes. -/
theorem C3_fixup_misalignment_witness :
    batchCreateOrUpdateTasks [taskXCompleted] [specX, specY, specZdepY]
      UpdateMode.selective none demoFresh 5 = none :=
  C3_fixup_misalignment.1 [taskXCompleted] [specX, specY, specZdepY] none demoFresh 5 2
    specZdepY (by decide) (by decide) (by decide)

/-- Witness for claim C4 at a concrete selective update. -/
theorem C4_selective_update_preserves_identity_witness :
    ∃ u ∈ [updatedTaskOf taskXLive specXnew (some "GAR") 9],
      u.id = taskXLive.id ∧ u.createdAt = taskXLive.createdAt ∧ u.name = specXnew.name ∧
      u.description = specXnew.description ∧ u.notes = specXnew.notes ∧
      u.implementationGuide = specXnew.implementationGuide ∧
      u.verificationCriteria = specXnew.verificationCriteria ∧
      u.analysisResult = some "GAR" ∧ u.updatedAt = 9 :=
  C4_selective_update_preserves_identity [taskXLive] [] [] specXnew (some "GAR") demoFresh 9
    "x-id" taskXLive [updatedTaskOf taskXLive specXnew (some "GAR") 9]
    [updatedTaskOf taskXLive specXnew (some "GAR") 9]
    (by decide) (by decide) (by decide) (by decide) (by decide)

end TaskModel
